import Mathlib

/-!
Verification development for the MoQ Unity native plugin
(`moq-unity/NativePlugin/MoqNativePlugin.cpp`).

The plugin keeps a global registry mapping integer handles to client
sessions.  Each session owns a background worker thread that first moves
the connection status from 0 (disconnected) to 1 (connecting) to 2
(connected) and then repeatedly generates a 640x480 RGBA test frame and
pushes it onto a FIFO queue bounded at 5 entries.  The foreground API
(`update`, `getFrameInfo`, `getFrameData`, `getConnectionStatus`) drains
the queue and reads the current frame.

The embedding below is a faithful translation of that code: every
session-level operation is a pure function on `SessionState`, one worker
loop iteration is one `workerIteration` step (the worker's thread-local
program counter and `frameCount` variable are carried in the state), and
the registry operations are pure functions on `Registry`.  All mutex
sections in the source are atomic with respect to each other, so an
execution of the system is an interleaving of these atomic steps; the
`SessionOp` type enumerates the steps that can touch one session and
`runOps` folds an arbitrary interleaving from the initial state.
-/

/-- A decoded frame, mirroring `struct DecodedFrame`: width, height,
RGBA byte data and a timestamp in microseconds.  Bytes are modelled as
`Nat` values (every byte the generator writes is `< 256`). -/
structure DecodedFrame where
  width : Nat
  height : Nat
  data : List Nat
  timestamp : Int

/-- The pixel bytes the worker generates for iteration `frameCount`
(`workerFunction`, the nested `y`/`x` loops): row-major, four bytes per
pixel, `r = (x + frameCount) % 255`, `g = (y + 2*frameCount) % 255`,
`b = (x + y + 3*frameCount) % 255`, alpha 255. -/
def framePixels (frameCount : Nat) : List Nat :=
  (List.range 480).flatMap (fun y =>
    (List.range 640).flatMap (fun x =>
      [(x + frameCount) % 255, (y + frameCount * 2) % 255,
       (x + y + frameCount * 3) % 255, 255]))

/-- Two's-complement wrap of an integer into the 32-bit signed range,
the concrete semantics of a C++ `int` arithmetic result. -/
def int32wrap (n : Int) : Int :=
  (n + 2147483648) % 4294967296 - 2147483648

/-- The frame the worker produces at iteration `frameCount`
(`workerFunction` loop body): 640x480, timestamp `frameCount * 16667`.
The source computes that product in 32-bit signed `int` arithmetic
(`int frameCount`; the widening to the `int64_t` timestamp field
happens only at the assignment), so it wraps once
`frameCount * 16667` exceeds `2^31 - 1`, i.e. from
`frameCount = 128847` on. -/
def makeFrame (frameCount : Nat) : DecodedFrame :=
  { width := 640
    height := 480
    data := framePixels frameCount
    timestamp := int32wrap ((frameCount : Int) * 16667) }

/-- State of one `MoqClientImpl` session.  The first six fields are the
C++ member fields; `workerPhase` and `frameCount` embed the worker
thread's control position (0: about to set status to connecting, 1:
about to set status to connected, 2: in the frame loop) and its local
`frameCount` variable. -/
structure SessionState where
  serverUrl : String
  streamPath : String
  targetLatencyMs : Int
  running : Bool
  connectionStatus : Int
  frameQueue : List DecodedFrame
  currentFrame : DecodedFrame
  hasNewFrame : Bool
  workerPhase : Nat
  frameCount : Nat

/-- The state established by the `MoqClientImpl` constructor: status 0,
`running` true, empty queue, default current frame, no unread frame, and
a worker that has not yet advanced. -/
def initSession (serverUrl streamPath : String) (targetLatencyMs : Int) : SessionState :=
  { serverUrl := serverUrl
    streamPath := streamPath
    targetLatencyMs := targetLatencyMs
    running := true
    connectionStatus := 0
    frameQueue := []
    currentFrame := { width := 0, height := 0, data := [], timestamp := 0 }
    hasNewFrame := false
    workerPhase := 0
    frameCount := 0 }

namespace MoqClientImpl

/-- `MoqClientImpl::update`: if the queue is nonempty, move its front
frame into the current-frame slot and set `hasNewFrame`; return whether
`connectionStatus >= 0`. -/
def update (s : SessionState) : Bool × SessionState :=
  match s.frameQueue with
  | [] => (decide (0 ≤ s.connectionStatus), s)
  | f :: rest =>
      (decide (0 ≤ s.connectionStatus),
       { s with currentFrame := f, frameQueue := rest, hasNewFrame := true })

/-- `MoqClientImpl::getFrameInfo`: report the current frame's dimensions
when an unread frame exists, otherwise fail. -/
def getFrameInfo (s : SessionState) : Option (Nat × Nat) :=
  if s.hasNewFrame then some (s.currentFrame.width, s.currentFrame.height) else none

/-- `MoqClientImpl::getFrameData`: when an unread nonempty frame exists
and the caller's buffer capacity is at least its byte size, return the
copied bytes and clear `hasNewFrame`; otherwise fail and change
nothing.  The returned list is the data `memcpy` writes to the caller's
buffer (`none` means the buffer is untouched). -/
def getFrameData (s : SessionState) (bufferSize : Int) : Option (List Nat) × SessionState :=
  if s.hasNewFrame && !s.currentFrame.data.isEmpty then
    if (s.currentFrame.data.length : Int) ≤ bufferSize then
      (some s.currentFrame.data, { s with hasNewFrame := false })
    else (none, s)
  else (none, s)

/-- `MoqClientImpl::getConnectionStatus`: return the status field. -/
def getConnectionStatus (s : SessionState) : Int :=
  s.connectionStatus

/-- One atomic step of `MoqClientImpl::workerFunction`.  Phase 0 sets
the status to 1 (connecting); phase 1 sets it to 2 (connected); from
phase 2 each step is one loop iteration: exit if `running` is false,
otherwise build `makeFrame frameCount`, push it only when the queue
holds fewer than 5 frames, and increment `frameCount` either way. -/
def workerIteration (s : SessionState) : SessionState :=
  match s.workerPhase with
  | 0 => { s with connectionStatus := 1, workerPhase := 1 }
  | 1 => { s with connectionStatus := 2, workerPhase := 2 }
  | _ =>
      if s.running then
        if s.frameQueue.length < 5 then
          { s with frameQueue := s.frameQueue ++ [makeFrame s.frameCount]
                   frameCount := s.frameCount + 1 }
        else { s with frameCount := s.frameCount + 1 }
      else s

end MoqClientImpl

/-- The atomic steps that can touch one session: one worker iteration,
or one foreground call.  `getFrameInfo` and `getConnectionStatus` do not
mutate the session but are listed so an interleaving can mention them. -/
inductive SessionOp where
  | workerIter : SessionOp
  | updateCall : SessionOp
  | frameInfoCall : SessionOp
  | statusCall : SessionOp
  | frameDataCall : Int → SessionOp

/-- Effect of one atomic step on the session state. -/
def applyOp (s : SessionState) : SessionOp → SessionState
  | .workerIter => MoqClientImpl.workerIteration s
  | .updateCall => (MoqClientImpl.update s).2
  | .frameInfoCall => s
  | .statusCall => s
  | .frameDataCall cap => (MoqClientImpl.getFrameData s cap).2

/-- The session state after an arbitrary interleaving `ops` of atomic
steps, starting from the constructor's state. -/
def runOps (serverUrl streamPath : String) (targetLatencyMs : Int)
    (ops : List SessionOp) : SessionState :=
  List.foldl applyOp (initSession serverUrl streamPath targetLatencyMs) ops

/-- The global registry: `g_nextClientId` and the handle-to-session map
`g_clients`, the latter as an association list (the C++ map holds at
most one entry per handle; `List.lookup` takes the first match). -/
structure Registry where
  nextClientId : Int
  clients : List (Int × SessionState)

/-- The registry at process start: `g_nextClientId = 1`, no clients. -/
def initRegistry : Registry :=
  { nextClientId := 1, clients := [] }

/-- Replace the session stored under handle `h` (in-place mutation of
`it->second` in the C++ map). -/
def setClient (cs : List (Int × SessionState)) (h : Int) (s : SessionState) :
    List (Int × SessionState) :=
  cs.map (fun p => if p.1 = h then (h, s) else p)

/-- `MoqCreateClient`: allocate the next handle, register a freshly
constructed session under it, return the handle. -/
def MoqCreateClient (r : Registry) (serverUrl streamPath : String)
    (targetLatencyMs : Int) : Int × Registry :=
  (r.nextClientId,
   { nextClientId := r.nextClientId + 1
     clients := (r.nextClientId, initSession serverUrl streamPath targetLatencyMs) :: r.clients })

/-- `MoqDestroyClient`: erase the handle's entry when present (which
stops and joins the session's worker); no-op on an unknown handle. -/
def MoqDestroyClient (r : Registry) (h : Int) : Registry :=
  { r with clients := r.clients.eraseP (fun p => p.1 == h) }

/-- `MoqUpdateClient`: look the handle up and delegate to
`MoqClientImpl::update`; `false` on an unknown handle. -/
def MoqUpdateClient (r : Registry) (h : Int) : Bool × Registry :=
  match r.clients.lookup h with
  | some s =>
      ((MoqClientImpl.update s).1,
       { r with clients := setClient r.clients h (MoqClientImpl.update s).2 })
  | none => (false, r)

/-- `MoqGetFrameInfo`: look the handle up and delegate; `none` (the C++
`false` with untouched out-parameters) on an unknown handle.  The
delegate does not mutate the session, so no registry is returned. -/
def MoqGetFrameInfo (r : Registry) (h : Int) : Option (Nat × Nat) :=
  match r.clients.lookup h with
  | some s => MoqClientImpl.getFrameInfo s
  | none => none

/-- `MoqGetFrameData`: look the handle up and delegate to
`MoqClientImpl::getFrameData`; `none` and an unchanged registry on an
unknown handle. -/
def MoqGetFrameData (r : Registry) (h : Int) (bufferSize : Int) :
    Option (List Nat) × Registry :=
  match r.clients.lookup h with
  | some s =>
      ((MoqClientImpl.getFrameData s bufferSize).1,
       { r with clients := setClient r.clients h (MoqClientImpl.getFrameData s bufferSize).2 })
  | none => (none, r)

/-- `MoqGetConnectionStatus`: look the handle up and delegate; `-1` on
an unknown handle. -/
def MoqGetConnectionStatus (r : Registry) (h : Int) : Int :=
  match r.clients.lookup h with
  | some s => MoqClientImpl.getConnectionStatus s
  | none => -1

/-- Atomic pieces of work appearing in the plugin source, used below to
record which work each lexical `lock_guard` region contains. -/
inductive CodeWork where
  | checkRunningFlag : CodeWork
  | generateFrame : CodeWork
  | queuePush : CodeWork
  | pacingSleep : CodeWork
  | connectionDelaySleep : CodeWork
  | setStatusConnecting : CodeWork
  | setStatusConnected : CodeWork
  | registryLookup : CodeWork
  | delegateGetFrameData : CodeWork
  | pixelCopy : CodeWork
deriving DecidableEq

/-- Work inside the `lock_guard(mutex_)` region of the worker's frame
loop body (`workerFunction`, the block from the lock to the queue push):
the running-flag check, the full gradient frame generation, and the
queue push all happen with the session lock held. -/
def workerLoopSessionLockRegion : List CodeWork :=
  [CodeWork.checkRunningFlag, CodeWork.generateFrame, CodeWork.queuePush]

/-- Work in the worker's frame loop outside any lock region: only the
~16ms pacing sleep. -/
def workerLoopUnlockedRegion : List CodeWork :=
  [CodeWork.pacingSleep]

/-- Work inside the first `lock_guard(mutex_)` region of the worker's
connection prelude: setting the status to connecting. -/
def workerPreludeFirstLockRegion : List CodeWork :=
  [CodeWork.setStatusConnecting]

/-- Work in the worker's connection prelude outside any lock region:
the 500ms simulated connection delay. -/
def workerPreludeUnlockedRegion : List CodeWork :=
  [CodeWork.connectionDelaySleep]

/-- Work inside the second `lock_guard(mutex_)` region of the worker's
connection prelude: setting the status to connected. -/
def workerPreludeSecondLockRegion : List CodeWork :=
  [CodeWork.setStatusConnected]

/-- Work inside the `lock_guard(g_clientsMutex)` region of
`MoqGetFrameData`: the handle lookup and the delegated
`getFrameData` call, which performs the `memcpy` pixel copy; the
registry lock is held until the function returns. -/
def moqGetFrameDataRegistryLockRegion : List CodeWork :=
  [CodeWork.registryLookup, CodeWork.delegateGetFrameData, CodeWork.pixelCopy]

/-- A well-formed frame: the reference generator's dimensions, and a
pixel payload of exactly `width * height * 4` bytes. -/
def goodFrame (f : DecodedFrame) : Prop :=
  f.width = 640 ∧ f.height = 480 ∧ f.data.length = f.width * f.height * 4

/-- Reachability invariant of one session: the queue is bounded by 5 and
holds well-formed frames, an unread current frame is well formed, and
the connection status is determined by the worker's phase. -/
structure SInv (s : SessionState) : Prop where
  qlen : s.frameQueue.length ≤ 5
  qgood : ∀ f ∈ s.frameQueue, goodFrame f
  cgood : s.hasNewFrame = true → goodFrame s.currentFrame
  phaseStatus : s.workerPhase = 0 ∧ s.connectionStatus = 0 ∨
    s.workerPhase = 1 ∧ s.connectionStatus = 1 ∨
    s.workerPhase = 2 ∧ s.connectionStatus = 2

/-- Timestamp ordering facts of one session: queued frames have strictly
increasing timestamps, all below the worker's next timestamp, and the
current-frame slot either still holds the constructor's empty frame (no
frame ever drained) or holds a frame older than everything queued and
below the next timestamp, whether or not it has been consumed. -/
structure TsProp (s : SessionState) : Prop where
  qsorted : List.Pairwise (fun a b : DecodedFrame => a.timestamp < b.timestamp) s.frameQueue
  qbound : ∀ f ∈ s.frameQueue, f.timestamp < (s.frameCount : Int) * 16667
  cbelow : (∀ f ∈ s.frameQueue, s.currentFrame.timestamp < f.timestamp) ∨
    s.currentFrame = ⟨0, 0, [], 0⟩
  cbound : s.currentFrame.timestamp < (s.frameCount : Int) * 16667 ∨
    s.currentFrame = ⟨0, 0, [], 0⟩

/-- Timestamp ordering holds as long as the worker's 32-bit product has
not yet wrapped, i.e. while `frameCount` is at most 128847 (the first
wrapped product is the one formed at `frameCount = 128847`). -/
def TsInv (s : SessionState) : Prop :=
  s.frameCount ≤ 128847 → TsProp s

/-- An interleaving of `n` produce/drain rounds: each round is one
worker iteration followed by one foreground `update`. -/
def cycleOps : Nat → List SessionOp
  | 0 => []
  | n + 1 => cycleOps n ++ [SessionOp.workerIter, SessionOp.updateCall]

/-- The session state reached after the worker's two connection steps
and then `n` produce/drain rounds: connected, empty queue, and (once
`n > 0`) the round's frame sitting unread in the current slot. -/
def cycleState (u p : String) (l : Int) : Nat → SessionState
  | 0 => ⟨u, p, l, true, 2, [], ⟨0, 0, [], 0⟩, false, 2, 0⟩
  | n + 1 => ⟨u, p, l, true, 2, [], makeFrame n, true, 2, n + 1⟩

/-- Length of a `flatMap` whose pieces all have the same length. -/
theorem flatMap_length_const {α : Type} (l : List α) (f : α → List Nat) (k : Nat)
    (h : ∀ a ∈ l, (f a).length = k) : (l.flatMap f).length = l.length * k := by
  induction l with
  | nil => simp
  | cons a t ih =>
      have ha : (f a).length = k := h a (List.mem_cons_self a t)
      have ht : ∀ b ∈ t, (f b).length = k := fun b hb => h b (List.mem_cons_of_mem a hb)
      rw [List.flatMap_cons, List.length_append, ha, ih ht, List.length_cons,
        Nat.succ_mul, Nat.add_comm]

/-- The generator always emits exactly `640 * 480 * 4` bytes. -/
theorem framePixels_length (n : Nat) : (framePixels n).length = 1228800 := by
  have hin : ∀ y ∈ List.range 480,
      ((List.range 640).flatMap (fun x =>
        [(x + n) % 255, (y + n * 2) % 255, (x + y + n * 3) % 255, 255])).length = 2560 := by
    intro y _
    have h4 := flatMap_length_const (List.range 640)
      (fun x => [(x + n) % 255, (y + n * 2) % 255, (x + y + n * 3) % 255, 255]) 4
      (fun x _ => rfl)
    simpa using h4
  have h480 := flatMap_length_const (List.range 480) _ 2560 hin
  simpa [framePixels] using h480

/-- Every frame the worker produces is well formed. -/
theorem makeFrame_good (n : Nat) : goodFrame (makeFrame n) := by
  refine ⟨rfl, rfl, ?_⟩
  show (framePixels n).length = 640 * 480 * 4
  rw [framePixels_length]

/-- The worker's timestamps advance strictly with `frameCount`. -/
theorem ts_step (fc : Nat) : (fc : Int) * 16667 < ((fc + 1 : Nat) : Int) * 16667 := by
  push_cast
  linarith

/-- The constructor's state satisfies the invariant. -/
theorem initSession_inv (u p : String) (l : Int) : SInv (initSession u p l) := by
  constructor <;> simp [initSession]

/-- Every atomic step preserves the session invariant. -/
theorem applyOp_inv (s : SessionState) (op : SessionOp) (hs : SInv s) : SInv (applyOp s op) := by
  cases op with
  | frameInfoCall => exact hs
  | statusCall => exact hs
  | frameDataCall cap =>
      show SInv (MoqClientImpl.getFrameData s cap).2
      unfold MoqClientImpl.getFrameData
      split_ifs with h1 h2
      · exact ⟨hs.qlen, hs.qgood, (fun h => nomatch h), hs.phaseStatus⟩
      · exact hs
      · exact hs
  | updateCall =>
      show SInv (MoqClientImpl.update s).2
      unfold MoqClientImpl.update
      rcases hq : s.frameQueue with _ | ⟨f, rest⟩
      · exact hs
      · refine ⟨?_, ?_, ?_, hs.phaseStatus⟩
        · have h1 := hs.qlen
          rw [hq] at h1
          exact Nat.le_of_succ_le h1
        · intro g hg
          exact hs.qgood g (by rw [hq]; exact List.mem_cons_of_mem f hg)
        · intro _
          exact hs.qgood f (by rw [hq]; exact List.mem_cons_self f rest)
  | workerIter =>
      show SInv (MoqClientImpl.workerIteration s)
      unfold MoqClientImpl.workerIteration
      rcases hph : s.workerPhase with _ | n
      · refine ⟨hs.qlen, hs.qgood, hs.cgood, ?_⟩
        right; left; exact ⟨rfl, rfl⟩
      · rcases n with _ | m
        · refine ⟨hs.qlen, hs.qgood, hs.cgood, ?_⟩
          right; right; exact ⟨rfl, rfl⟩
        · split_ifs with hr hlen
          · refine ⟨?_, ?_, hs.cgood, ?_⟩
            · show (s.frameQueue ++ [makeFrame s.frameCount]).length ≤ 5
              rw [List.length_append]
              simp only [List.length_singleton]
              omega
            · intro g hg
              rcases List.mem_append.mp hg with h | h
              · exact hs.qgood g h
              · rw [List.mem_singleton] at h
                subst h
                exact makeFrame_good _
            · have hp := hs.phaseStatus
              rw [hph] at hp
              exact hp
          · refine ⟨hs.qlen, hs.qgood, hs.cgood, ?_⟩
            have hp := hs.phaseStatus
            rw [hph] at hp
            exact hp
          · exact hs

/-- The invariant holds after any interleaving from an invariant state. -/
theorem foldl_inv (ops : List SessionOp) : ∀ s : SessionState, SInv s →
    SInv (List.foldl applyOp s ops) := by
  induction ops with
  | nil => exact fun _ hs => hs
  | cons op rest ih => exact fun s hs => ih (applyOp s op) (applyOp_inv s op hs)

/-- Every reachable session state satisfies the invariant. -/
theorem runOps_inv (u p : String) (l : Int) (ops : List SessionOp) : SInv (runOps u p l ops) :=
  foldl_inv ops _ (initSession_inv u p l)

/-- Below the overflow point the 32-bit product is exact. -/
theorem int32wrap_small (k : Nat) (hk : k ≤ 128846) :
    int32wrap ((k : Int) * 16667) = (k : Int) * 16667 := by
  unfold int32wrap
  omega

/-- Every atomic step preserves the timestamp invariant. -/
theorem applyOp_ts (s : SessionState) (op : SessionOp) (ht : TsInv s) : TsInv (applyOp s op) := by
  cases op with
  | frameInfoCall => exact ht
  | statusCall => exact ht
  | frameDataCall cap =>
      show TsInv (MoqClientImpl.getFrameData s cap).2
      unfold MoqClientImpl.getFrameData
      split_ifs with h1 h2
      · intro hfc
        have hp := ht hfc
        exact ⟨hp.qsorted, hp.qbound, hp.cbelow, hp.cbound⟩
      · exact ht
      · exact ht
  | updateCall =>
      show TsInv (MoqClientImpl.update s).2
      unfold MoqClientImpl.update
      rcases hq : s.frameQueue with _ | ⟨f, rest⟩
      · exact ht
      · intro hfc
        have hp := ht hfc
        refine ⟨?_, ?_, ?_, ?_⟩
        · have h4 := hp.qsorted
          rw [hq] at h4
          exact h4.of_cons
        · intro g hg
          exact hp.qbound g (by rw [hq]; exact List.mem_cons_of_mem f hg)
        · left
          intro g hg
          have h4 := hp.qsorted
          rw [hq] at h4
          exact (List.pairwise_cons.mp h4).1 g hg
        · left
          exact hp.qbound f (by rw [hq]; exact List.mem_cons_self f rest)
  | workerIter =>
      show TsInv (MoqClientImpl.workerIteration s)
      unfold MoqClientImpl.workerIteration
      rcases hph : s.workerPhase with _ | n
      · intro hfc
        have hp := ht hfc
        exact ⟨hp.qsorted, hp.qbound, hp.cbelow, hp.cbound⟩
      · rcases n with _ | m
        · intro hfc
          have hp := ht hfc
          exact ⟨hp.qsorted, hp.qbound, hp.cbelow, hp.cbound⟩
        · split_ifs with hr hlen
          · intro hfc
            have hfc' : s.frameCount + 1 ≤ 128847 := hfc
            have hk : s.frameCount ≤ 128846 := by omega
            have hp := ht (by omega)
            have hwrap : (makeFrame s.frameCount).timestamp
                = (s.frameCount : Int) * 16667 := by
              show int32wrap ((s.frameCount : Int) * 16667) = (s.frameCount : Int) * 16667
              exact int32wrap_small s.frameCount hk
            refine ⟨?_, ?_, ?_, ?_⟩
            · show List.Pairwise _ (s.frameQueue ++ [makeFrame s.frameCount])
              rw [List.pairwise_append]
              refine ⟨hp.qsorted, List.pairwise_singleton _ _, ?_⟩
              intro a ha b hb
              rw [List.mem_singleton] at hb
              subst hb
              rw [hwrap]
              exact hp.qbound a ha
            · intro g hg
              rcases List.mem_append.mp hg with h | h
              · exact lt_trans (hp.qbound g h) (ts_step s.frameCount)
              · rw [List.mem_singleton] at h
                subst h
                rw [hwrap]
                exact ts_step s.frameCount
            · by_cases hd : s.currentFrame = ⟨0, 0, [], 0⟩
              · right
                exact hd
              · left
                have hc : ∀ g ∈ s.frameQueue, s.currentFrame.timestamp < g.timestamp := by
                  rcases hp.cbelow with hc | hdef
                  · exact hc
                  · exact absurd hdef hd
                have hcb : s.currentFrame.timestamp < (s.frameCount : Int) * 16667 := by
                  rcases hp.cbound with hcb | hdef
                  · exact hcb
                  · exact absurd hdef hd
                intro g hg
                rcases List.mem_append.mp hg with h | h
                · exact hc g h
                · rw [List.mem_singleton] at h
                  subst h
                  rw [hwrap]
                  exact hcb
            · rcases hp.cbound with hcb | hdef
              · left
                exact lt_trans hcb (ts_step s.frameCount)
              · right
                exact hdef
          · intro hfc
            have hfc' : s.frameCount + 1 ≤ 128847 := hfc
            have hp := ht (by omega)
            refine ⟨hp.qsorted, ?_, hp.cbelow, ?_⟩
            · intro g hg
              exact lt_trans (hp.qbound g hg) (ts_step s.frameCount)
            · rcases hp.cbound with hcb | hdef
              · left
                exact lt_trans hcb (ts_step s.frameCount)
              · right
                exact hdef
          · exact ht

/-- The timestamp invariant holds after any interleaving from an
invariant state. -/
theorem foldl_ts (ops : List SessionOp) : ∀ s : SessionState, TsInv s →
    TsInv (List.foldl applyOp s ops) := by
  induction ops with
  | nil => exact fun _ ht => ht
  | cons op rest ih => exact fun s ht => ih (applyOp s op) (applyOp_ts s op ht)

/-- The constructor's state satisfies the timestamp invariant. -/
theorem initSession_ts (u p : String) (l : Int) : TsInv (initSession u p l) :=
  fun _ => ⟨by simp [initSession], by simp [initSession], Or.inr rfl, Or.inr rfl⟩

/-- Every reachable session state satisfies the timestamp invariant. -/
theorem runOps_ts (u p : String) (l : Int) (ops : List SessionOp) : TsInv (runOps u p l ops) :=
  foldl_ts ops _ (initSession_ts u p l)

/-- Running `n` produce/drain rounds from the connected state lands in
`cycleState n`: the queue is drained every round, so every round's frame
is pushed and the worker's count advances one per round. -/
theorem cycle_run (u p : String) (l : Int) :
    ∀ n : Nat, List.foldl applyOp (cycleState u p l 0) (cycleOps n) = cycleState u p l n := by
  intro n
  induction n with
  | zero => rfl
  | succ k ih =>
      rw [show cycleOps (k + 1)
          = cycleOps k ++ [SessionOp.workerIter, SessionOp.updateCall] from rfl,
        List.foldl_append, ih]
      cases k with
      | zero => rfl
      | succ j => rfl

/-- No atomic step decreases the connection status. -/
theorem applyOp_status_mono (s : SessionState) (op : SessionOp) (hs : SInv s) :
    s.connectionStatus ≤ (applyOp s op).connectionStatus := by
  cases op with
  | frameInfoCall => exact le_refl _
  | statusCall => exact le_refl _
  | frameDataCall cap =>
      show s.connectionStatus ≤ (MoqClientImpl.getFrameData s cap).2.connectionStatus
      unfold MoqClientImpl.getFrameData
      split_ifs <;> exact le_refl _
  | updateCall =>
      show s.connectionStatus ≤ (MoqClientImpl.update s).2.connectionStatus
      unfold MoqClientImpl.update
      rcases s.frameQueue with _ | ⟨f, rest⟩ <;> exact le_refl _
  | workerIter =>
      show s.connectionStatus ≤ (MoqClientImpl.workerIteration s).connectionStatus
      unfold MoqClientImpl.workerIteration
      rcases hph : s.workerPhase with _ | n
      · have h0 : s.connectionStatus = 0 := by
          rcases hs.phaseStatus with ⟨hp, hc⟩ | ⟨hp, hc⟩ | ⟨hp, hc⟩
          · exact hc
          · rw [hph] at hp; exact absurd hp (by decide)
          · rw [hph] at hp; exact absurd hp (by decide)
        rw [h0]
        show (0 : Int) ≤ 1
        decide
      · rcases n with _ | m
        · have h1 : s.connectionStatus = 1 := by
            rcases hs.phaseStatus with ⟨hp, hc⟩ | ⟨hp, hc⟩ | ⟨hp, hc⟩
            · rw [hph] at hp; exact absurd hp (by decide)
            · exact hc
            · rw [hph] at hp; exact absurd hp (by decide)
          rw [h1]
          show (1 : Int) ≤ 2
          decide
        · split_ifs <;> exact le_refl _

/-- The connection status never decreases along any interleaving. -/
theorem foldl_status_mono (ops : List SessionOp) : ∀ s : SessionState, SInv s →
    s.connectionStatus ≤ (List.foldl applyOp s ops).connectionStatus := by
  induction ops with
  | nil => exact fun _ _ => le_refl _
  | cons op rest ih =>
      intro s hs
      exact le_trans (applyOp_status_mono s op hs) (ih (applyOp s op) (applyOp_inv s op hs))

/-- The boolean `update` returns does not depend on the queue. -/
theorem update_fst (s : SessionState) :
    (MoqClientImpl.update s).1 = decide (0 ≤ s.connectionStatus) := by
  unfold MoqClientImpl.update
  rcases s.frameQueue with _ | ⟨f, rest⟩ <;> rfl

/-- After replacing the session stored under a registered handle, a
lookup of that handle finds the replacement. -/
theorem setClient_lookup (cs : List (Int × SessionState)) (hd : Int) (s s' : SessionState)
    (hl : cs.lookup hd = some s) : (setClient cs hd s').lookup hd = some s' := by
  induction cs with
  | nil => simp [List.lookup] at hl
  | cons p rest ih =>
      rcases p with ⟨k, v⟩
      by_cases hk : k = hd
      · show List.lookup hd
          ((if k = hd then (hd, s') else (k, v)) :: setClient rest hd s') = some s'
        rw [if_pos hk]
        simp [List.lookup]
      · have hbeq : (hd == k) = false := by
          simp [Ne.symm hk]
        have hl2 : rest.lookup hd = some s := by
          rw [List.lookup] at hl
          rw [hbeq] at hl
          exact hl
        show List.lookup hd
          ((if k = hd then (hd, s') else (k, v)) :: setClient rest hd s') = some s'
        rw [if_neg hk, List.lookup, hbeq]
        exact ih hl2

/-- C1: every operation on a handle absent from the registry fails with
its operation's failure value (`false`, `none`, negative status) and
leaves the registry, hence every session, unchanged. -/
theorem unknown_handle_ops (r : Registry) (h cap : Int)
    (hl : r.clients.lookup h = none) :
    MoqUpdateClient r h = (false, r) ∧
    MoqGetFrameInfo r h = none ∧
    MoqGetFrameData r h cap = (none, r) ∧
    MoqGetConnectionStatus r h < 0 := by
  unfold MoqUpdateClient MoqGetFrameInfo MoqGetFrameData MoqGetConnectionStatus
  rw [hl]
  exact ⟨rfl, rfl, rfl, by decide⟩

/-- Witness for C1 at the empty registry and handle 0. -/
theorem unknown_handle_ops_witness :
    initRegistry.clients.lookup 0 = none ∧
    MoqUpdateClient initRegistry 0 = (false, initRegistry) ∧
    MoqGetFrameInfo initRegistry 0 = none ∧
    MoqGetFrameData initRegistry 0 7 = (none, initRegistry) ∧
    MoqGetConnectionStatus initRegistry 0 < 0 := by
  refine ⟨rfl, ?_⟩
  exact unknown_handle_ops initRegistry 0 7 rfl

/-- C2: along every interleaving the queue never exceeds 5 frames, and
a worker iteration that finds the queue full leaves it exactly as it
was: the freshly generated frame is discarded and no queued frame is
evicted. -/
theorem frameQueue_bounded (u p : String) (l : Int) (ops : List SessionOp)
    (s : SessionState) (hfull : 5 ≤ s.frameQueue.length) :
    (runOps u p l ops).frameQueue.length ≤ 5 ∧
    (MoqClientImpl.workerIteration s).frameQueue = s.frameQueue := by
  refine ⟨(runOps_inv u p l ops).qlen, ?_⟩
  unfold MoqClientImpl.workerIteration
  rcases hph : s.workerPhase with _ | n
  · rfl
  · rcases n with _ | m
    · rfl
    · split_ifs with hr hlen
      · exact absurd hlen (by omega)
      · rfl
      · rfl

/-- Witness for C2 at a session whose queue holds five empty frames. -/
theorem frameQueue_bounded_witness :
    5 ≤ (SessionState.mk "a" "b" 0 true 2
      [⟨0, 0, [], 0⟩, ⟨0, 0, [], 0⟩, ⟨0, 0, [], 0⟩, ⟨0, 0, [], 0⟩, ⟨0, 0, [], 0⟩]
      ⟨0, 0, [], 0⟩ false 2 0).frameQueue.length ∧
    (runOps "a" "b" 0 [SessionOp.workerIter]).frameQueue.length ≤ 5 ∧
    (MoqClientImpl.workerIteration (SessionState.mk "a" "b" 0 true 2
      [⟨0, 0, [], 0⟩, ⟨0, 0, [], 0⟩, ⟨0, 0, [], 0⟩, ⟨0, 0, [], 0⟩, ⟨0, 0, [], 0⟩]
      ⟨0, 0, [], 0⟩ false 2 0)).frameQueue =
    (SessionState.mk "a" "b" 0 true 2
      [⟨0, 0, [], 0⟩, ⟨0, 0, [], 0⟩, ⟨0, 0, [], 0⟩, ⟨0, 0, [], 0⟩, ⟨0, 0, [], 0⟩]
      ⟨0, 0, [], 0⟩ false 2 0).frameQueue := by
  refine ⟨by decide, ?_⟩
  exact frameQueue_bounded "a" "b" 0 [SessionOp.workerIter] _ (by decide)

/-- C4: once `getFrameData` has succeeded, a second `getFrameData` on
the resulting state fails, whatever buffer it brings: a frame's pixel
payload is consumed exactly once. -/
theorem getFrameData_consumes_once (s : SessionState) (n m : Int)
    (h : (MoqClientImpl.getFrameData s n).1.isSome = true) :
    (MoqClientImpl.getFrameData (MoqClientImpl.getFrameData s n).2 m).1 = none := by
  unfold MoqClientImpl.getFrameData
  unfold MoqClientImpl.getFrameData at h
  split_ifs at h with h1 h2
  · simp [h1, h2]
  · simp at h
  · simp at h

/-- Witness for C4 at a four-byte frame read with a four-byte buffer. -/
theorem getFrameData_consumes_once_witness :
    (MoqClientImpl.getFrameData
      (SessionState.mk "a" "b" 0 true 2 [] ⟨1, 1, [9, 9, 9, 9], 0⟩ true 2 1) 4).1.isSome
      = true ∧
    (MoqClientImpl.getFrameData
      (MoqClientImpl.getFrameData
        (SessionState.mk "a" "b" 0 true 2 [] ⟨1, 1, [9, 9, 9, 9], 0⟩ true 2 1) 4).2 99).1
      = none := by
  refine ⟨rfl, ?_⟩
  exact getFrameData_consumes_once
    (SessionState.mk "a" "b" 0 true 2 [] ⟨1, 1, [9, 9, 9, 9], 0⟩ true 2 1) 4 99 rfl

/-- C7: on a registered handle, `MoqUpdateClient` returns true exactly
when the session's status is non-negative, stores the updated session
back under the handle, and that update pops at most the single oldest
queued frame into the current-frame slot, setting the unread flag when
it does. -/
theorem update_true_iff_status (r : Registry) (hd : Int) (s : SessionState)
    (hl : r.clients.lookup hd = some s) :
    ((MoqUpdateClient r hd).1 = true ↔ 0 ≤ s.connectionStatus) ∧
    (MoqUpdateClient r hd).2.clients.lookup hd = some (MoqClientImpl.update s).2 ∧
    (s.frameQueue = [] → (MoqClientImpl.update s).2 = s) ∧
    (∀ f fs, s.frameQueue = f :: fs →
      (MoqClientImpl.update s).2 =
        { s with currentFrame := f, frameQueue := fs, hasNewFrame := true }) := by
  refine ⟨?_, ?_, ?_, ?_⟩
  · unfold MoqUpdateClient
    rw [hl]
    show (MoqClientImpl.update s).1 = true ↔ 0 ≤ s.connectionStatus
    rw [update_fst]
    exact decide_eq_true_iff
  · unfold MoqUpdateClient
    rw [hl]
    exact setClient_lookup r.clients hd s _ hl
  · intro hq
    unfold MoqClientImpl.update
    rw [hq]
  · intro f fs hq
    unfold MoqClientImpl.update
    rw [hq]

/-- Witness for C7 at a one-client registry. -/
theorem update_true_iff_status_witness :
    (MoqCreateClient initRegistry "a" "b" 33).2.clients.lookup 1
      = some (initSession "a" "b" 33) ∧
    ((MoqUpdateClient (MoqCreateClient initRegistry "a" "b" 33).2 1).1 = true ↔
      0 ≤ (initSession "a" "b" 33).connectionStatus) ∧
    (MoqUpdateClient (MoqCreateClient initRegistry "a" "b" 33).2 1).2.clients.lookup 1
      = some (MoqClientImpl.update (initSession "a" "b" 33)).2 ∧
    ((initSession "a" "b" 33).frameQueue = [] →
      (MoqClientImpl.update (initSession "a" "b" 33)).2 = initSession "a" "b" 33) ∧
    (∀ f fs, (initSession "a" "b" 33).frameQueue = f :: fs →
      (MoqClientImpl.update (initSession "a" "b" 33)).2 =
        { initSession "a" "b" 33 with
            currentFrame := f, frameQueue := fs, hasNewFrame := true }) := by
  refine ⟨rfl, ?_⟩
  exact update_true_iff_status (MoqCreateClient initRegistry "a" "b" 33).2 1
    (initSession "a" "b" 33) rfl

/-- On any state with an unread frame of nonzero byte length, a
too-small buffer makes `getFrameData` fail without touching the state,
and a sufficient buffer makes it return exactly the frame's bytes. -/
theorem getFrameData_general (s : SessionState) (small big : Int)
    (hn : s.hasNewFrame = true) (hne : s.currentFrame.data.length ≠ 0)
    (hsmall : small < (s.currentFrame.data.length : Int))
    (hbig : (s.currentFrame.data.length : Int) ≤ big) :
    MoqClientImpl.getFrameData s small = (none, s) ∧
    (MoqClientImpl.getFrameData s big).1 = some s.currentFrame.data := by
  have hdata : s.currentFrame.data.isEmpty = false := by
    cases hD : s.currentFrame.data with
    | nil => exact absurd (by rw [hD]; rfl) hne
    | cons a t => rfl
  have hcond : (s.hasNewFrame && !s.currentFrame.data.isEmpty) = true := by
    rw [hn, hdata]
    rfl
  constructor
  · unfold MoqClientImpl.getFrameData
    rw [if_pos hcond, if_neg (not_le.mpr hsmall)]
  · unfold MoqClientImpl.getFrameData
    rw [if_pos hcond, if_pos hbig]

/-- C3: on any reachable state with an unread frame, `getFrameData`
with a buffer strictly smaller than the frame's byte length fails,
writes nothing, and leaves the state (flag and current frame) exactly
as it was, so a retry with a sufficient buffer returns that same
frame's bytes. -/
theorem getFrameData_small_buffer (u p : String) (l : Int) (ops : List SessionOp)
    (small big : Int)
    (hn : (runOps u p l ops).hasNewFrame = true)
    (hsmall : small < ((runOps u p l ops).currentFrame.data.length : Int))
    (hbig : ((runOps u p l ops).currentFrame.data.length : Int) ≤ big) :
    MoqClientImpl.getFrameData (runOps u p l ops) small = (none, runOps u p l ops) ∧
    (MoqClientImpl.getFrameData (runOps u p l ops) big).1
      = some (runOps u p l ops).currentFrame.data := by
  have hg := (runOps_inv u p l ops).cgood hn
  have hne : (runOps u p l ops).currentFrame.data.length ≠ 0 := by
    rw [hg.2.2, hg.1, hg.2.1]
    norm_num
  exact getFrameData_general _ small big hn hne hsmall hbig

/-- Witness for C3 after the worker connects, pushes one frame, and the
foreground drains it: a zero-capacity read fails without consuming, a
1228800-byte read then succeeds. -/
theorem getFrameData_small_buffer_witness :
    (runOps "a" "b" 0 [SessionOp.workerIter, SessionOp.workerIter, SessionOp.workerIter,
      SessionOp.updateCall]).hasNewFrame = true ∧
    (0 : Int) < ((runOps "a" "b" 0 [SessionOp.workerIter, SessionOp.workerIter,
      SessionOp.workerIter, SessionOp.updateCall]).currentFrame.data.length : Int) ∧
    ((runOps "a" "b" 0 [SessionOp.workerIter, SessionOp.workerIter, SessionOp.workerIter,
      SessionOp.updateCall]).currentFrame.data.length : Int) ≤ 1228800 ∧
    MoqClientImpl.getFrameData (runOps "a" "b" 0 [SessionOp.workerIter, SessionOp.workerIter,
      SessionOp.workerIter, SessionOp.updateCall]) 0
      = (none, runOps "a" "b" 0 [SessionOp.workerIter, SessionOp.workerIter,
          SessionOp.workerIter, SessionOp.updateCall]) ∧
    (MoqClientImpl.getFrameData (runOps "a" "b" 0 [SessionOp.workerIter, SessionOp.workerIter,
      SessionOp.workerIter, SessionOp.updateCall]) 1228800).1
      = some (runOps "a" "b" 0 [SessionOp.workerIter, SessionOp.workerIter,
          SessionOp.workerIter, SessionOp.updateCall]).currentFrame.data := by
  have hlen : (runOps "a" "b" 0 [SessionOp.workerIter, SessionOp.workerIter,
      SessionOp.workerIter, SessionOp.updateCall]).currentFrame.data.length = 1228800 := by
    have hc : (runOps "a" "b" 0 [SessionOp.workerIter, SessionOp.workerIter,
        SessionOp.workerIter, SessionOp.updateCall]).currentFrame = makeFrame 0 := rfl
    rw [hc]
    exact framePixels_length 0
  have h2 : (0 : Int) < ((runOps "a" "b" 0 [SessionOp.workerIter, SessionOp.workerIter,
      SessionOp.workerIter, SessionOp.updateCall]).currentFrame.data.length : Int) := by
    rw [hlen]
    norm_num
  have h3 : ((runOps "a" "b" 0 [SessionOp.workerIter, SessionOp.workerIter,
      SessionOp.workerIter, SessionOp.updateCall]).currentFrame.data.length : Int)
      ≤ 1228800 := by
    rw [hlen]
    norm_num
  refine ⟨rfl, h2, h3, ?_⟩
  exact getFrameData_small_buffer "a" "b" 0 [SessionOp.workerIter, SessionOp.workerIter,
    SessionOp.workerIter, SessionOp.updateCall] 0 1228800 rfl h2 h3

/-- C5 counterexample: the worker's timestamps are not strictly
increasing over every iteration sequence.  After the two connection
steps, 128846 produce/drain rounds, and two further worker pushes — a
reachable interleaving — the queue holds the frames of iterations
128846 and 128847 in that order, and the second timestamp is smaller:
the 32-bit product `128847 * 16667 = 2147492949` wraps to
`-2146974347`, below `128846 * 16667 = 2147476282`. -/
theorem timestamps_not_increasing_counterexample :
    ¬ List.Pairwise (fun a b : DecodedFrame => a.timestamp < b.timestamp)
      (runOps "a" "b" 0 ([SessionOp.workerIter, SessionOp.workerIter] ++ cycleOps 128846 ++
        [SessionOp.workerIter, SessionOp.workerIter])).frameQueue := by
  have hq : (runOps "a" "b" 0 ([SessionOp.workerIter, SessionOp.workerIter] ++
      cycleOps 128846 ++
      [SessionOp.workerIter, SessionOp.workerIter])).frameQueue
      = [makeFrame 128846, makeFrame 128847] := by
    unfold runOps
    rw [List.foldl_append, List.foldl_append]
    have h2 : List.foldl applyOp (initSession "a" "b" 0)
        [SessionOp.workerIter, SessionOp.workerIter] = cycleState "a" "b" 0 0 := rfl
    rw [h2, cycle_run "a" "b" 0 128846]
    rfl
  rw [hq]
  intro h
  have hrel := (List.pairwise_cons.mp h).1 (makeFrame 128847)
    (List.mem_cons_self _ _)
  have hfalse : ¬ ((makeFrame 128846).timestamp < (makeFrame 128847).timestamp) := by
    decide
  exact hfalse hrel

/-- C5 amended: as long as the worker's frame count stays at most
128847 (before the 32-bit product `frameCount * 16667` first wraps),
the queued frames' timestamps are strictly increasing, the produced
timestamp is exactly `frameCount * 16667`, and once any frame has been
drained into the current slot (consumed or not — the slot no longer
holds the constructor's empty frame), draining the next queued frame
strictly increases the current frame's timestamp. -/
theorem worker_timestamps_increasing_pre_overflow (u p : String) (l : Int)
    (ops : List SessionOp) (hfc : (runOps u p l ops).frameCount ≤ 128847) :
    List.Pairwise (fun a b : DecodedFrame => a.timestamp < b.timestamp)
      (runOps u p l ops).frameQueue ∧
    (∀ n : Nat, n ≤ 128846 → (makeFrame n).timestamp = (n : Int) * 16667) ∧
    (∀ f fs, (runOps u p l ops).frameQueue = f :: fs →
      (runOps u p l ops).currentFrame ≠ ⟨0, 0, [], 0⟩ →
      (runOps u p l ops).currentFrame.timestamp <
        (MoqClientImpl.update (runOps u p l ops)).2.currentFrame.timestamp) := by
  have hp := runOps_ts u p l ops hfc
  refine ⟨hp.qsorted, ?_, ?_⟩
  · intro n hn
    show int32wrap ((n : Int) * 16667) = (n : Int) * 16667
    exact int32wrap_small n hn
  · intro f fs hq hd
    have hc : ∀ g ∈ (runOps u p l ops).frameQueue,
        (runOps u p l ops).currentFrame.timestamp < g.timestamp := by
      rcases hp.cbelow with hc | hdef
      · exact hc
      · exact absurd hdef hd
    have hb := hc f (by rw [hq]; exact List.mem_cons_self f fs)
    have hu : (MoqClientImpl.update (runOps u p l ops)).2.currentFrame = f := by
      unfold MoqClientImpl.update
      rw [hq]
    rw [hu]
    exact hb

/-- Witness for the amended C5: after two pushes and one drain the
frame count is 2, the current slot holds a real frame, and the next
drain strictly increases the current timestamp. -/
theorem worker_timestamps_increasing_pre_overflow_witness :
    (runOps "a" "b" 0 [SessionOp.workerIter, SessionOp.workerIter, SessionOp.workerIter,
      SessionOp.workerIter, SessionOp.updateCall]).frameCount ≤ 128847 ∧
    (runOps "a" "b" 0 [SessionOp.workerIter, SessionOp.workerIter, SessionOp.workerIter,
      SessionOp.workerIter, SessionOp.updateCall]).frameQueue = [makeFrame 1] ∧
    (runOps "a" "b" 0 [SessionOp.workerIter, SessionOp.workerIter, SessionOp.workerIter,
      SessionOp.workerIter, SessionOp.updateCall]).currentFrame ≠ ⟨0, 0, [], 0⟩ ∧
    (runOps "a" "b" 0 [SessionOp.workerIter, SessionOp.workerIter, SessionOp.workerIter,
      SessionOp.workerIter, SessionOp.updateCall]).currentFrame.timestamp <
      (MoqClientImpl.update (runOps "a" "b" 0 [SessionOp.workerIter, SessionOp.workerIter,
        SessionOp.workerIter, SessionOp.workerIter,
        SessionOp.updateCall])).2.currentFrame.timestamp := by
  have hd : (runOps "a" "b" 0 [SessionOp.workerIter, SessionOp.workerIter,
      SessionOp.workerIter, SessionOp.workerIter,
      SessionOp.updateCall]).currentFrame ≠ ⟨0, 0, [], 0⟩ := by
    intro hEq
    exact absurd (congrArg DecodedFrame.width hEq) (by decide)
  refine ⟨by decide, rfl, hd, ?_⟩
  exact (worker_timestamps_increasing_pre_overflow "a" "b" 0
    [SessionOp.workerIter, SessionOp.workerIter, SessionOp.workerIter,
     SessionOp.workerIter, SessionOp.updateCall] (by decide)).2.2
    (makeFrame 1) [] rfl hd

/-- C6: every frame the worker produces is 640x480 with exactly
`width * height * 4` pixel bytes, every queued frame on every reachable
state satisfies the same equation, and whenever `getFrameInfo` reports
dimensions, the current frame's pixel payload (what `getFrameData`
would copy) has exactly `width * height * 4` bytes. -/
theorem frames_well_formed (u p : String) (l : Int) (ops : List SessionOp) (n : Nat) :
    (makeFrame n).width = 640 ∧ (makeFrame n).height = 480 ∧
    (makeFrame n).data.length = (makeFrame n).width * (makeFrame n).height * 4 ∧
    (∀ f ∈ (runOps u p l ops).frameQueue, f.data.length = f.width * f.height * 4) ∧
    (∀ w hgt, MoqClientImpl.getFrameInfo (runOps u p l ops) = some (w, hgt) →
      (runOps u p l ops).currentFrame.data.length = w * hgt * 4) := by
  refine ⟨rfl, rfl, (makeFrame_good n).2.2, ?_, ?_⟩
  · intro f hf
    exact ((runOps_inv u p l ops).qgood f hf).2.2
  · intro w hgt hinfo
    unfold MoqClientImpl.getFrameInfo at hinfo
    split_ifs at hinfo with hn
    · have hg := (runOps_inv u p l ops).cgood hn
      simp only [Option.some.injEq, Prod.mk.injEq] at hinfo
      rw [← hinfo.1, ← hinfo.2]
      exact hg.2.2

/-- Witness for C6: after one push and one drain, `getFrameInfo`
reports 640x480 and the current payload is 640*480*4 bytes. -/
theorem frames_well_formed_witness :
    MoqClientImpl.getFrameInfo (runOps "a" "b" 0 [SessionOp.workerIter, SessionOp.workerIter,
      SessionOp.workerIter, SessionOp.updateCall]) = some (640, 480) ∧
    (runOps "a" "b" 0 [SessionOp.workerIter, SessionOp.workerIter, SessionOp.workerIter,
      SessionOp.updateCall]).currentFrame.data.length = 640 * 480 * 4 := by
  refine ⟨rfl, ?_⟩
  exact (frames_well_formed "a" "b" 0 [SessionOp.workerIter, SessionOp.workerIter,
    SessionOp.workerIter, SessionOp.updateCall] 0).2.2.2.2 640 480 rfl

/-- C8: on every reachable state the connection status lies in 0..2,
and extending the interleaving never decreases it: the status only
moves along 0 (disconnected) to 1 (connecting) to 2 (connected), and in
particular never falls back from connected to disconnected. -/
theorem connection_status_monotone (u p : String) (l : Int) (ops more : List SessionOp) :
    0 ≤ MoqClientImpl.getConnectionStatus (runOps u p l ops) ∧
    MoqClientImpl.getConnectionStatus (runOps u p l ops) ≤ 2 ∧
    MoqClientImpl.getConnectionStatus (runOps u p l ops) ≤
      MoqClientImpl.getConnectionStatus (runOps u p l (ops ++ more)) := by
  have hinv := runOps_inv u p l ops
  have hb : 0 ≤ (runOps u p l ops).connectionStatus ∧
      (runOps u p l ops).connectionStatus ≤ 2 := by
    rcases hinv.phaseStatus with ⟨_, hc⟩ | ⟨_, hc⟩ | ⟨_, hc⟩ <;> rw [hc] <;>
      exact ⟨by norm_num, by norm_num⟩
  refine ⟨hb.1, hb.2, ?_⟩
  show (runOps u p l ops).connectionStatus ≤ (runOps u p l (ops ++ more)).connectionStatus
  have happ : runOps u p l (ops ++ more) = List.foldl applyOp (runOps u p l ops) more := by
    unfold runOps
    rw [List.foldl_append]
  rw [happ]
  exact foldl_status_mono more _ hinv

/-- C10: `update` on an empty queue is the identity on the session, so
any number of further `update` calls leaves the current-frame slot and
the unread flag untouched and `getFrameInfo`/`getFrameData` still see
the same unread frame. -/
theorem update_empty_queue_noop (s : SessionState) (n : Nat) (cap : Int)
    (hq : s.frameQueue = []) :
    (fun t => (MoqClientImpl.update t).2)^[n] s = s ∧
    MoqClientImpl.getFrameInfo ((fun t => (MoqClientImpl.update t).2)^[n] s)
      = MoqClientImpl.getFrameInfo s ∧
    (MoqClientImpl.getFrameData ((fun t => (MoqClientImpl.update t).2)^[n] s) cap).1
      = (MoqClientImpl.getFrameData s cap).1 := by
  have hid : (fun t => (MoqClientImpl.update t).2)^[n] s = s := by
    induction n with
    | zero => rfl
    | succ k ih =>
        rw [Function.iterate_succ_apply', ih]
        unfold MoqClientImpl.update
        rw [hq]
  exact ⟨hid, by rw [hid], by rw [hid]⟩

/-- Witness for C10 at a session holding an unread four-byte frame and
an empty queue, updated three times. -/
theorem update_empty_queue_noop_witness :
    (SessionState.mk "a" "b" 0 true 2 [] ⟨1, 1, [5, 6, 7, 8], 0⟩ true 2 1).frameQueue = [] ∧
    (fun t => (MoqClientImpl.update t).2)^[3]
        (SessionState.mk "a" "b" 0 true 2 [] ⟨1, 1, [5, 6, 7, 8], 0⟩ true 2 1)
      = SessionState.mk "a" "b" 0 true 2 [] ⟨1, 1, [5, 6, 7, 8], 0⟩ true 2 1 ∧
    MoqClientImpl.getFrameInfo ((fun t => (MoqClientImpl.update t).2)^[3]
        (SessionState.mk "a" "b" 0 true 2 [] ⟨1, 1, [5, 6, 7, 8], 0⟩ true 2 1))
      = MoqClientImpl.getFrameInfo
          (SessionState.mk "a" "b" 0 true 2 [] ⟨1, 1, [5, 6, 7, 8], 0⟩ true 2 1) ∧
    (MoqClientImpl.getFrameData ((fun t => (MoqClientImpl.update t).2)^[3]
        (SessionState.mk "a" "b" 0 true 2 [] ⟨1, 1, [5, 6, 7, 8], 0⟩ true 2 1)) 4).1
      = (MoqClientImpl.getFrameData
          (SessionState.mk "a" "b" 0 true 2 [] ⟨1, 1, [5, 6, 7, 8], 0⟩ true 2 1) 4).1 := by
  refine ⟨rfl, ?_⟩
  exact update_empty_queue_noop
    (SessionState.mk "a" "b" 0 true 2 [] ⟨1, 1, [5, 6, 7, 8], 0⟩ true 2 1) 3 4 rfl

/-- C9 as stated is false on the code: the worker's frame generation
happens inside the session-lock region of the loop body, and the
registry lock of `MoqGetFrameData` is held across the delegated pixel
copy. -/
theorem locks_counterexample :
    ¬ (CodeWork.generateFrame ∉ workerLoopSessionLockRegion ∧
       CodeWork.pixelCopy ∉ moqGetFrameDataRegistryLockRegion) := by
  decide

/-- C9 amended: the worker holds the session lock across frame
generation and the queue push, the registry lock is held across the
whole lookup-and-delegate step of `MoqGetFrameData` including the pixel
copy, and only the sleeps (pacing and connection delay) happen outside
every lock region. -/
theorem locks_actual_scopes :
    CodeWork.generateFrame ∈ workerLoopSessionLockRegion ∧
    CodeWork.queuePush ∈ workerLoopSessionLockRegion ∧
    CodeWork.pixelCopy ∈ moqGetFrameDataRegistryLockRegion ∧
    CodeWork.pacingSleep ∉ workerLoopSessionLockRegion ∧
    CodeWork.pacingSleep ∈ workerLoopUnlockedRegion ∧
    CodeWork.connectionDelaySleep ∈ workerPreludeUnlockedRegion ∧
    CodeWork.connectionDelaySleep ∉ workerPreludeFirstLockRegion ∧
    CodeWork.connectionDelaySleep ∉ workerPreludeSecondLockRegion := by
  decide
